import Mathlib

/-!
Verification of the resilient telemetry transport subsystem of talis-agent:
a shallow embedding of the circuit breaker, the resilient API client
(`internal/api/client.go`) and the telemetry scheduler loop
(`internal/metrics` TelemetryClient.Start), with proofs of the specified
properties.

Time is modelled by abstract `Nat` timestamps; `time.Since lastFailure`
becomes `now - lastFailure` (truncated subtraction, adequate since real
timestamps are monotone and `lastFailure` is always in the past).
-/

namespace TalisAgent

/-- State enum of the breaker, `CircuitBreakerState`
(`client.go:18-28`). -/
inductive CircuitBreakerState where
  | CircuitClosed
  | CircuitOpen
  | CircuitHalfOpen
deriving DecidableEq, Repr

export CircuitBreakerState (CircuitClosed CircuitOpen CircuitHalfOpen)

/-- Model of `CircuitBreaker` (`client.go:30-38`); the mutex is dropped (the
embedding is sequential), times are `Nat`. -/
structure CircuitBreaker where
  state : CircuitBreakerState
  failureCount : Nat
  lastFailure : Nat
  failureThreshold : Nat
  resetTimeout : Nat
deriving DecidableEq, Repr

/-- The breaker as built by `NewClient` (`client.go:73-77`): state Closed,
zero failure count, zero `lastFailure` (Go zero time). -/
def initialBreaker (thr rt : Nat) : CircuitBreaker :=
  { state := CircuitClosed, failureCount := 0, lastFailure := 0,
    failureThreshold := thr, resetTimeout := rt }

/-- Model of `CircuitBreaker.AllowRequest` (`client.go:168-190`), returning the
answer and the possibly-updated breaker: Closed and HalfOpen allow;
Open allows iff `now - lastFailure > resetTimeout`, transitioning to
HalfOpen as a side effect of the check. -/
def AllowRequest (cb : CircuitBreaker) (now : Nat) : Bool × CircuitBreaker :=
  match cb.state with
  | CircuitClosed => (true, cb)
  | CircuitOpen =>
      if now - cb.lastFailure > cb.resetTimeout then
        (true, { cb with state := CircuitHalfOpen })
      else
        (false, cb)
  | CircuitHalfOpen => (true, cb)

/-- Model of `CircuitBreaker.RecordSuccess` (`client.go:192-199`): unconditionally
clears the failure count and closes the circuit. -/
def RecordSuccess (cb : CircuitBreaker) : CircuitBreaker :=
  { cb with failureCount := 0, state := CircuitClosed }

/-- Model of `CircuitBreaker.RecordFailure` (`client.go:201-212`): increments the
count, stamps `lastFailure := now`, and opens the circuit when the state
was HalfOpen or the new count reaches the threshold. -/
def RecordFailure (cb : CircuitBreaker) (now : Nat) : CircuitBreaker :=
  let cb1 := { cb with failureCount := cb.failureCount + 1, lastFailure := now }
  if cb1.state = CircuitHalfOpen ∨ cb1.failureCount ≥ cb1.failureThreshold then
    { cb1 with state := CircuitOpen }
  else
    cb1

/-- One breaker operation, tagged with the wall-clock instant at which it
runs (only `AllowRequest` and `RecordFailure` read the clock). -/
inductive BreakerOp where
  | allow (now : Nat)
  | recSuccess
  | recFailure (now : Nat)
deriving DecidableEq, Repr

/-- Apply one operation to a breaker, keeping only the state effect. -/
def applyOp (cb : CircuitBreaker) : BreakerOp → CircuitBreaker
  | BreakerOp.allow now => (AllowRequest cb now).2
  | BreakerOp.recSuccess => RecordSuccess cb
  | BreakerOp.recFailure now => RecordFailure cb now

/-- Run a sequence of breaker operations from a starting breaker. -/
def runOps (cb : CircuitBreaker) (ops : List BreakerOp) : CircuitBreaker :=
  ops.foldl applyOp cb

/-- The breaker invariant: away from Closed the failure count has reached
the threshold. -/
def BreakerInv (cb : CircuitBreaker) : Prop :=
  cb.state ≠ CircuitClosed → cb.failureCount ≥ cb.failureThreshold

theorem applyOp_threshold (cb : CircuitBreaker) (op : BreakerOp) :
    (applyOp cb op).failureThreshold = cb.failureThreshold := by
  cases op with
  | allow now =>
      simp only [applyOp, AllowRequest]
      cases h : cb.state <;> simp
      split <;> simp
  | recSuccess => rfl
  | recFailure now =>
      simp only [applyOp, RecordFailure]
      split <;> simp

theorem applyOp_inv (cb : CircuitBreaker) (op : BreakerOp)
    (h : BreakerInv cb) : BreakerInv (applyOp cb op) := by
  cases op with
  | allow now =>
      simp only [applyOp, AllowRequest]
      cases hs : cb.state with
      | CircuitClosed => exact h
      | CircuitOpen =>
          have hge := h (by simp [hs])
          intro _
          by_cases hc : cb.resetTimeout < now - cb.lastFailure <;> simp [hc, hge]
      | CircuitHalfOpen => exact h
  | recSuccess =>
      intro hne
      simp [RecordSuccess, applyOp] at hne
  | recFailure now =>
      simp only [applyOp, RecordFailure]
      split
      · rename_i hcond
        intro _
        show cb.failureCount + 1 ≥ cb.failureThreshold
        rcases hcond with hhalf | hge
        · have hx := h (by simp [hhalf])
          omega
        · omega
      · rename_i hcond
        intro hne
        show cb.failureCount + 1 ≥ cb.failureThreshold
        have hx := h hne
        omega

theorem runOps_inv (ops : List BreakerOp) (cb : CircuitBreaker)
    (h : BreakerInv cb) : BreakerInv (runOps cb ops) := by
  induction ops generalizing cb with
  | nil => exact h
  | cons op rest ih => exact ih (applyOp cb op) (applyOp_inv cb op h)

/-! ## The resilient client: `Client.Request` and `Client.doRequest`
(`client.go:84-165`).

The environment a `Request` call runs against — limiter cancellation,
context cancellation before each retry delay, JSON marshalling of the
body, and the HTTP response per attempt — is an explicit `ReqWorld`
oracle. The call produces, besides its result and final breaker, a list
of `Event`s recording the observable actions in order. -/

/-- Outcome of `httpClient.Do` plus body read for one attempt:
a transport error, or a response with a status code, a flag for whether
`io.ReadAll` on the body succeeds, and the body bytes. -/
inductive HttpResult where
  | transportFail
  | response (statusCode : Nat) (readOk : Bool) (body : List Nat)
deriving DecidableEq, Repr

/-- The ways `doRequest` fails (`client.go:126-165`): body marshalling,
request construction, transport, body read, or a status code ≥ 400. -/
inductive DoError where
  | marshalFail
  | newRequestFail
  | transportFail
  | readFail
  | statusFail (code : Nat)
deriving DecidableEq, Repr

/-- The environment one `Request` call runs against. -/
structure ReqWorld where
  /-- Whether `limiter.Wait(ctx)` returns an error (context cancelled). -/
  limiterCancelled : Bool
  /-- Whether the context is observed done in the select before attempt `i`'s
  retry delay (`client.go:98-102`; only consulted for `i > 0`). -/
  ctxDoneAt : Nat → Bool
  /-- Whether the call passes a non-nil body. -/
  bodyPresent : Bool
  /-- Whether `json.Marshal(body)` succeeds (the body is fixed, so this does not
  depend on the attempt). -/
  marshalOk : Bool
  /-- Whether `http.NewRequestWithContext` succeeds (fixed method/URL). -/
  newRequestOk : Bool
  /-- The HTTP exchange for attempt `i`. -/
  http : Nat → HttpResult
  /-- Value of `time.Now()` at attempt `i`, stamped into `RecordFailure`. -/
  attemptTime : Nat → Nat

/-- Errors a `Request` call can return (`client.go:84-123`):
the circuit-open error, the rate-limit error, `ctx.Err()` during a retry
delay, or the final wrap of the last attempt error. -/
inductive ReqError where
  | circuitOpen
  | rateLimitExceeded
  | cancelled
  | transportError (last : Option DoError)
deriving DecidableEq, Repr

/-- Observable actions of one `Request` call, in order. -/
inductive Event where
  | breakerCheck (allowed : Bool)
  | limiterWait
  | retryDelay (attempt : Nat)
  | networkCall (attempt : Nat)
  | recordFailure (attempt : Nat)
  | recordSuccess (attempt : Nat)
deriving DecidableEq, Repr

/-- Model of `Client.doRequest` (`client.go:126-165`): marshal the body if
present, build the request, run it, read the body, then fail on any
status ≥ 400, else return the body bytes. -/
def doRequest (w : ReqWorld) (i : Nat) : Except DoError (List Nat) :=
  if w.bodyPresent ∧ ¬ w.marshalOk then Except.error DoError.marshalFail
  else if ¬ w.newRequestOk then Except.error DoError.newRequestFail
  else
    match w.http i with
    | HttpResult.transportFail => Except.error DoError.transportFail
    | HttpResult.response code readOk body =>
        if ¬ readOk then Except.error DoError.readFail
        else if code ≥ 400 then Except.error (DoError.statusFail code)
        else Except.ok body

/-- Whether attempt `i` reaches `httpClient.Do` at all: marshalling and
request construction must both succeed first. -/
def touchesNetwork (w : ReqWorld) (_i : Nat) : Bool :=
  !(w.bodyPresent && !w.marshalOk) && w.newRequestOk

/-- Events of attempt `i` up to the network boundary. -/
def attemptEvents (w : ReqWorld) (i : Nat) : List Event :=
  if touchesNetwork w i then [Event.networkCall i] else []

/-- The retry delay events preceding attempt `i` (none before the
first attempt). -/
def delayEvents (i : Nat) : List Event :=
  if i = 0 then [] else [Event.retryDelay i]

/-- The retry loop of `Client.Request` (`client.go:95-122`), for
attempts `i, i+1, …` with `r` iterations remaining; `lastErr` is the
retained error of the previous attempts. Returns the result, the final
breaker, and the loop's events. -/
def requestLoop (w : ReqWorld) (cb : CircuitBreaker) (i r : Nat)
    (lastErr : Option DoError) :
    Except ReqError (List Nat) × CircuitBreaker × List Event :=
  match r with
  | 0 => (Except.error (ReqError.transportError lastErr), cb, [])
  | Nat.succ rr =>
      if i ≠ 0 ∧ w.ctxDoneAt i then (Except.error ReqError.cancelled, cb, [])
      else
        match doRequest w i with
        | Except.error e =>
            let next := requestLoop w (RecordFailure cb (w.attemptTime i))
              (i + 1) rr (some e)
            (next.1, next.2.1,
              delayEvents i ++ attemptEvents w i ++ [Event.recordFailure i]
                ++ next.2.2)
        | Except.ok body =>
            (Except.ok body, RecordSuccess cb,
              delayEvents i ++ attemptEvents w i ++ [Event.recordSuccess i])

/-- The client configuration fields that drive `Request`'s control flow. -/
structure Client where
  maxRetries : Nat
deriving DecidableEq, Repr

/-- Model of `Client.Request` (`client.go:84-123`): circuit-breaker check, then
rate-limiter wait, then the retry loop of `maxRetries + 1` attempts. -/
def Request (c : Client) (cb : CircuitBreaker) (w : ReqWorld) (now : Nat) :
    Except ReqError (List Nat) × CircuitBreaker × List Event :=
  let allowRes := AllowRequest cb now
  if ¬ allowRes.1 then
    (Except.error ReqError.circuitOpen, allowRes.2, [Event.breakerCheck false])
  else if w.limiterCancelled then
    (Except.error ReqError.rateLimitExceeded, allowRes.2,
      [Event.breakerCheck true, Event.limiterWait])
  else
    let loopRes := requestLoop w allowRes.2 0 (c.maxRetries + 1) none
    (loopRes.1, loopRes.2.1,
      Event.breakerCheck true :: Event.limiterWait :: loopRes.2.2)

/-! ### Characterisation of the retry loop -/

/-- The error of attempt `i`, if it fails. -/
def doErr (w : ReqWorld) (i : Nat) : Option DoError :=
  match doRequest w i with
  | Except.error e => some e
  | Except.ok _ => none

/-- The breaker after recording failures for attempts `i, …, i+r-1`. -/
def failFold (w : ReqWorld) (cb : CircuitBreaker) (i r : Nat) :
    CircuitBreaker :=
  match r with
  | 0 => cb
  | Nat.succ rr => failFold w (RecordFailure cb (w.attemptTime i)) (i + 1) rr

/-- The event trace of attempts `i, …, i+r-1` all failing. -/
def failEvents (w : ReqWorld) (i r : Nat) : List Event :=
  match r with
  | 0 => []
  | Nat.succ rr =>
      delayEvents i ++ attemptEvents w i ++ [Event.recordFailure i]
        ++ failEvents w (i + 1) rr

/-- The retained error after attempts `i, …, i+r-1` all fail, starting
from `lastErr`. -/
def lastErrOf (w : ReqWorld) (i r : Nat) (lastErr : Option DoError) :
    Option DoError :=
  match r with
  | 0 => lastErr
  | Nat.succ rr => doErr w (i + rr)

/-- Event classifiers. -/
def isBreakerCheck : Event → Bool
  | Event.breakerCheck _ => true
  | _ => false

def isLimiterWait : Event → Bool
  | Event.limiterWait => true
  | _ => false

def isNetworkCall : Event → Bool
  | Event.networkCall _ => true
  | _ => false

def isRecordFailure : Event → Bool
  | Event.recordFailure _ => true
  | _ => false

/-- The loop, when the context never fires and every attempt in range
fails, runs all `r` remaining attempts, records `r` failures, and exits
with the last attempt's error. -/
theorem requestLoop_allFail (w : ReqWorld) (cb : CircuitBreaker)
    (i r : Nat) (lastErr : Option DoError)
    (hctx : ∀ j, w.ctxDoneAt j = false)
    (hfail : ∀ j, ∃ e, doRequest w j = Except.error e) :
    requestLoop w cb i r lastErr =
      (Except.error (ReqError.transportError (lastErrOf w i r lastErr)),
        failFold w cb i r, failEvents w i r) := by
  induction r generalizing cb i lastErr with
  | zero => rfl
  | succ rr ih =>
      obtain ⟨e, he⟩ := hfail i
      have hrec := ih (RecordFailure cb (w.attemptTime i)) (i + 1) (some e)
      simp only [requestLoop, hctx i, he, hrec]
      rw [if_neg (by simp)]
      have hlast : lastErrOf w (i + 1) rr (some e) =
          lastErrOf w i (rr + 1) lastErr := by
        cases rr with
        | zero =>
            show some e = doErr w (i + 0)
            simp [doErr, he]
        | succ rrr =>
            show doErr w (i + 1 + rrr) = doErr w (i + (rrr + 1))
            congr 1
            omega
      rw [hlast]
      rfl

theorem RecordFailure_failureCount (cb : CircuitBreaker) (t : Nat) :
    (RecordFailure cb t).failureCount = cb.failureCount + 1 := by
  simp only [RecordFailure]
  split <;> rfl

theorem RecordFailure_failureThreshold (cb : CircuitBreaker) (t : Nat) :
    (RecordFailure cb t).failureThreshold = cb.failureThreshold := by
  simp only [RecordFailure]
  split <;> rfl

theorem failFold_failureCount (w : ReqWorld) (r : Nat) :
    ∀ (cb : CircuitBreaker) (i : Nat),
      (failFold w cb i r).failureCount = cb.failureCount + r := by
  induction r with
  | zero => intro cb i; rfl
  | succ rr ih =>
      intro cb i
      show (failFold w (RecordFailure cb (w.attemptTime i)) (i + 1) rr).failureCount
        = cb.failureCount + (rr + 1)
      rw [ih, RecordFailure_failureCount]
      omega

theorem failFold_failureThreshold (w : ReqWorld) (r : Nat) :
    ∀ (cb : CircuitBreaker) (i : Nat),
      (failFold w cb i r).failureThreshold = cb.failureThreshold := by
  induction r with
  | zero => intro cb i; rfl
  | succ rr ih =>
      intro cb i
      show (failFold w (RecordFailure cb (w.attemptTime i)) (i + 1) rr).failureThreshold
        = cb.failureThreshold
      rw [ih, RecordFailure_failureThreshold]

/-- Enough recorded failures drive any breaker to Open: the last of the
`r ≥ 1` failures sees a count that has reached the threshold. -/
theorem failFold_state_open (w : ReqWorld) (r : Nat) :
    ∀ (cb : CircuitBreaker) (i : Nat), 1 ≤ r →
      cb.failureThreshold ≤ cb.failureCount + r →
      (failFold w cb i r).state = CircuitOpen := by
  induction r with
  | zero => intro cb i h1 _; omega
  | succ rr ih =>
      intro cb i _ h2
      cases rr with
      | zero =>
          show (RecordFailure cb (w.attemptTime i)).state = CircuitOpen
          unfold RecordFailure
          rw [if_pos]
          · right
            show cb.failureCount + 1 ≥ cb.failureThreshold
            omega
      | succ rrr =>
          show (failFold w (RecordFailure cb (w.attemptTime i)) (i + 1)
            (rrr + 1)).state = CircuitOpen
          apply ih
          · omega
          · rw [RecordFailure_failureThreshold, RecordFailure_failureCount]
            omega

/-- No breaker-check and no limiter-wait event in a list. -/
def ctlFree (evs : List Event) : Bool :=
  evs.all (fun e => !(isBreakerCheck e) && !(isLimiterWait e))

theorem ctlFree_append (a b : List Event) :
    ctlFree (a ++ b) = (ctlFree a && ctlFree b) := by
  unfold ctlFree
  exact List.all_append

theorem ctlFree_cons (e : Event) (l : List Event) :
    ctlFree (e :: l) =
      ((!(isBreakerCheck e) && !(isLimiterWait e)) && ctlFree l) := rfl

theorem ctlFree_delayEvents (i : Nat) : ctlFree (delayEvents i) = true := by
  unfold delayEvents
  split <;> rfl

theorem ctlFree_attemptEvents (w : ReqWorld) (i : Nat) :
    ctlFree (attemptEvents w i) = true := by
  unfold attemptEvents
  split <;> rfl

theorem ctlFree_failEvents (w : ReqWorld) (r : Nat) :
    ∀ i, ctlFree (failEvents w i r) = true := by
  induction r with
  | zero => intro i; rfl
  | succ rr ih =>
      intro i
      show ctlFree (delayEvents i ++ attemptEvents w i
        ++ [Event.recordFailure i] ++ failEvents w (i + 1) rr) = true
      simp [ctlFree_append, ctlFree_cons, ctlFree_delayEvents,
        ctlFree_attemptEvents, ih, isBreakerCheck, isLimiterWait]

/-- The retry loop emits neither a breaker check nor a limiter wait. -/
theorem requestLoop_ctlFree (w : ReqWorld) (r : Nat) :
    ∀ (cb : CircuitBreaker) (i : Nat) (lastErr : Option DoError),
      ctlFree (requestLoop w cb i r lastErr).2.2 = true := by
  induction r with
  | zero => intro cb i lastErr; rfl
  | succ rr ih =>
      intro cb i lastErr
      unfold requestLoop
      split
      · rfl
      · cases hdo : doRequest w i with
        | error e =>
            simp only
            simp [ctlFree_append, ctlFree_cons, ctlFree_delayEvents,
              ctlFree_attemptEvents, ih, isBreakerCheck, isLimiterWait]
        | ok body =>
            simp only
            simp [ctlFree_append, ctlFree_cons, ctlFree_delayEvents,
              ctlFree_attemptEvents, isBreakerCheck, isLimiterWait]
            rfl

theorem countP_eq_zero_of_ctlFree (evs : List Event)
    (h : ctlFree evs = true) :
    evs.countP (fun e => isBreakerCheck e) = 0 := by
  rw [List.countP_eq_zero]
  intro e he
  have := List.all_eq_true.mp h e he
  simp only [Bool.and_eq_true, Bool.not_eq_true'] at this
  simp [this.1]

theorem countP_recordFailure_delayEvents (i : Nat) :
    (delayEvents i).countP (fun e => isRecordFailure e) = 0 := by
  unfold delayEvents
  split <;> rfl

theorem countP_recordFailure_attemptEvents (w : ReqWorld) (i : Nat) :
    (attemptEvents w i).countP (fun e => isRecordFailure e) = 0 := by
  unfold attemptEvents
  split <;> rfl

/-- The all-failures trace contains exactly `r` failure recordings. -/
theorem countP_recordFailure_failEvents (w : ReqWorld) (r : Nat) :
    ∀ i, (failEvents w i r).countP (fun e => isRecordFailure e) = r := by
  induction r with
  | zero => intro i; rfl
  | succ rr ih =>
      intro i
      show (delayEvents i ++ attemptEvents w i ++ [Event.recordFailure i]
        ++ failEvents w (i + 1) rr).countP (fun e => isRecordFailure e) = rr + 1
      rw [List.countP_append, List.countP_append, List.countP_append,
        countP_recordFailure_delayEvents, countP_recordFailure_attemptEvents,
        ih (i + 1)]
      simp [List.countP_cons, isRecordFailure]
      omega

/-- Every attempt after the first is preceded by a retry-delay wait in
the all-failures trace. -/
theorem retryDelay_mem_failEvents (w : ReqWorld) (r : Nat) :
    ∀ i j, i ≤ j → j < i + r → j ≠ 0 →
      Event.retryDelay j ∈ failEvents w i r := by
  induction r with
  | zero => intro i j h1 h2 _; omega
  | succ rr ih =>
      intro i j h1 h2 h3
      show Event.retryDelay j ∈ delayEvents i ++ attemptEvents w i
        ++ [Event.recordFailure i] ++ failEvents w (i + 1) rr
      by_cases hij : j = i
      · subst hij
        have hd : delayEvents j = [Event.retryDelay j] := by
          unfold delayEvents
          rw [if_neg h3]
        simp [hd]
      · have hmem := ih (i + 1) j (by omega) (by omega) h3
        simp [hmem]

/-- The loop when attempts `i, …, k-1` fail and attempt `k` succeeds
(with the context quiet): it returns attempt `k`'s body, the breaker is
the failure fold closed by `RecordSuccess`, and the trace is the failure
trace followed by attempt `k`'s events. -/
theorem requestLoop_succAt (w : ReqWorld) (r : Nat) :
    ∀ (cb : CircuitBreaker) (i : Nat) (lastErr : Option DoError)
      (k : Nat) (body : List Nat),
      i ≤ k → k < i + r →
      (∀ j, w.ctxDoneAt j = false) →
      (∀ j, i ≤ j → j < k → ∃ e, doRequest w j = Except.error e) →
      doRequest w k = Except.ok body →
      requestLoop w cb i r lastErr =
        (Except.ok body, RecordSuccess (failFold w cb i (k - i)),
          failEvents w i (k - i) ++ delayEvents k ++ attemptEvents w k
            ++ [Event.recordSuccess k]) := by
  induction r with
  | zero => intro cb i lastErr k body h1 h2 _ _ _; omega
  | succ rr ih =>
      intro cb i lastErr k body h1 h2 hctx hfail hok
      by_cases hik : k = i
      · subst hik
        have hki : k - k = 0 := by omega
        simp only [requestLoop, hctx k, hok, hki]
        rw [if_neg (by simp)]
        rfl
      · obtain ⟨e, he⟩ := hfail i (by omega) (by omega)
        have hrec := ih (RecordFailure cb (w.attemptTime i)) (i + 1) (some e)
          k body (by omega) (by omega) hctx
          (fun j hj1 hj2 => hfail j (by omega) hj2) hok
        simp only [requestLoop, hctx i, he, hrec]
        rw [if_neg (by simp)]
        have hk : k - i = (k - (i + 1)) + 1 := by omega
        rw [hk]
        show _ = (Except.ok body,
          RecordSuccess (failFold w (RecordFailure cb (w.attemptTime i))
            (i + 1) (k - (i + 1))),
          (delayEvents i ++ attemptEvents w i ++ [Event.recordFailure i]
            ++ failEvents w (i + 1) (k - (i + 1))) ++ delayEvents k
            ++ attemptEvents w k ++ [Event.recordSuccess k])
        simp [List.append_assoc]

/-- A fixed benign environment for concrete witnesses: no cancellation,
no body, request construction fine, every HTTP exchange a transport
failure at instant 7. -/
def sampleWorld : ReqWorld :=
  { limiterCancelled := false
    ctxDoneAt := fun _ => false
    bodyPresent := false
    marshalOk := true
    newRequestOk := true
    http := fun _ => HttpResult.transportFail
    attemptTime := fun _ => 7 }

/-! ## Claims C1, C2, C5, C6: breaker-level properties -/

/-- C1: while the breaker is Open and the reset timeout has not elapsed
since the last failure, `Request` fails immediately with the circuit-open
error: the breaker is returned unchanged (nothing recorded) and the trace
holds only the denied breaker check — no limiter wait, no network call,
no retry attempt. -/
theorem request_denied_when_open (c : Client) (cb : CircuitBreaker)
    (w : ReqWorld) (now : Nat) (hs : cb.state = CircuitOpen)
    (ht : ¬ now - cb.lastFailure > cb.resetTimeout) :
    Request c cb w now =
      (Except.error ReqError.circuitOpen, cb, [Event.breakerCheck false]) := by
  simp only [Request, AllowRequest, hs]
  rw [if_neg ht]
  simp

theorem request_denied_when_open_witness :
    Request ⟨2⟩ ⟨CircuitOpen, 5, 10, 5, 5⟩ sampleWorld 12 =
      (Except.error ReqError.circuitOpen, ⟨CircuitOpen, 5, 10, 5, 5⟩,
        [Event.breakerCheck false]) :=
  request_denied_when_open ⟨2⟩ ⟨CircuitOpen, 5, 10, 5, 5⟩ sampleWorld 12 rfl
    (by decide)

/-- C2: in Open, once more than `resetTimeout` has elapsed since the
last failure, the next `AllowRequest` returns true and as a side effect
moves the breaker to HalfOpen; a success recorded on that probe closes
the breaker with `failureCount = 0`; a failure recorded on it at time
`t` returns the breaker to Open with `lastFailure` refreshed to `t`
(restarting the window); and while the elapsed time is not greater than
`resetTimeout`, `AllowRequest` in Open returns false, unchanged. -/
theorem open_halfopen_probe (cb : CircuitBreaker) (now t : Nat) :
    (cb.state = CircuitOpen → now - cb.lastFailure > cb.resetTimeout →
      AllowRequest cb now = (true, { cb with state := CircuitHalfOpen })) ∧
    (cb.state = CircuitOpen → ¬ now - cb.lastFailure > cb.resetTimeout →
      AllowRequest cb now = (false, cb)) ∧
    (cb.state = CircuitHalfOpen →
      RecordSuccess cb =
        { cb with state := CircuitClosed, failureCount := 0 }) ∧
    (cb.state = CircuitHalfOpen →
      RecordFailure cb t =
        { cb with
            state := CircuitOpen
            failureCount := cb.failureCount + 1
            lastFailure := t }) := by
  refine ⟨?_, ?_, ?_, ?_⟩
  · intro hs ht
    simp only [AllowRequest, hs]
    rw [if_pos ht]
  · intro hs ht
    simp only [AllowRequest, hs]
    rw [if_neg ht]
  · intro _
    rfl
  · intro hs
    simp [RecordFailure, hs]

theorem open_halfopen_probe_witness :
    AllowRequest ⟨CircuitOpen, 5, 10, 5, 4⟩ 16 =
      (true, ⟨CircuitHalfOpen, 5, 10, 5, 4⟩) ∧
    AllowRequest ⟨CircuitOpen, 5, 10, 5, 4⟩ 13 =
      (false, ⟨CircuitOpen, 5, 10, 5, 4⟩) ∧
    RecordSuccess ⟨CircuitHalfOpen, 5, 10, 5, 4⟩ =
      ⟨CircuitClosed, 0, 10, 5, 4⟩ ∧
    RecordFailure ⟨CircuitHalfOpen, 5, 10, 5, 4⟩ 20 =
      ⟨CircuitOpen, 6, 20, 5, 4⟩ :=
  ⟨(open_halfopen_probe ⟨CircuitOpen, 5, 10, 5, 4⟩ 16 20).1 rfl (by decide),
   (open_halfopen_probe ⟨CircuitOpen, 5, 10, 5, 4⟩ 13 20).2.1 rfl (by decide),
   (open_halfopen_probe ⟨CircuitHalfOpen, 5, 10, 5, 4⟩ 16 20).2.2.1 rfl,
   (open_halfopen_probe ⟨CircuitHalfOpen, 5, 10, 5, 4⟩ 16 20).2.2.2 rfl⟩

/-- C5: from the initial Closed breaker, along every operation sequence:
(a) whenever the state is Open the failure count — which only record
operations touch, so it equals the count at the most recent recorded
failure — has reached the failure threshold; and (b) any single step
that moves any breaker into Closed resets the failure count to 0. -/
theorem breaker_invariant (thr rt : Nat) (ops : List BreakerOp) :
    ((runOps (initialBreaker thr rt) ops).state = CircuitOpen →
      (runOps (initialBreaker thr rt) ops).failureCount ≥
        (runOps (initialBreaker thr rt) ops).failureThreshold) ∧
    (∀ (cb : CircuitBreaker) (op : BreakerOp),
      (applyOp cb op).state = CircuitClosed → cb.state ≠ CircuitClosed →
        (applyOp cb op).failureCount = 0) := by
  constructor
  · intro hopen
    have hinv : BreakerInv (initialBreaker thr rt) := fun hne => absurd rfl hne
    exact runOps_inv ops _ hinv (by simp [hopen])
  · intro cb op hc hne
    cases op with
    | allow now =>
        exfalso
        simp only [applyOp, AllowRequest] at hc
        cases hs : cb.state with
        | CircuitClosed => exact hne hs
        | CircuitOpen =>
            rw [hs] at hc
            by_cases hcnd : now - cb.lastFailure > cb.resetTimeout
            · rw [if_pos hcnd] at hc
              simp at hc
            · rw [if_neg hcnd] at hc
              exact hne hc
        | CircuitHalfOpen =>
            rw [hs] at hc
            exact hne hc
    | recSuccess => rfl
    | recFailure now =>
        exfalso
        simp only [applyOp, RecordFailure] at hc
        split at hc
        · exact CircuitBreakerState.noConfusion hc
        · exact hne hc

theorem breaker_invariant_witness :
    (runOps (initialBreaker 1 5) [BreakerOp.recFailure 3]).failureCount ≥
      (runOps (initialBreaker 1 5) [BreakerOp.recFailure 3]).failureThreshold :=
  (breaker_invariant 1 5 [BreakerOp.recFailure 3]).1 (by decide)

/-- C6 counterexample: with threshold 3, a single recorded failure from
the initial breaker reaches a Closed state with `failureCount = 1`, so a
success recorded at that reachable Closed state is not a no-op — the
claim that the count is already 0 whenever a success is recorded in
Closed is false on the code. -/
theorem closed_success_noop_cex :
    (runOps (initialBreaker 3 10) [BreakerOp.recFailure 1]).state =
      CircuitClosed ∧
    (runOps (initialBreaker 3 10) [BreakerOp.recFailure 1]).failureCount
      = 1 ∧
    RecordSuccess (runOps (initialBreaker 3 10) [BreakerOp.recFailure 1]) ≠
      runOps (initialBreaker 3 10) [BreakerOp.recFailure 1] := by
  decide

/-- C6 amended: in Closed, recording a success keeps the state Closed
and sets the failure count to 0 (a no-op only when the count is already
0; Closed states with a nonzero count are reachable); recording a
failure increments the count and stamps the failure time, transitioning
to Open exactly when the new count reaches the threshold. -/
theorem closed_record_ops (cb : CircuitBreaker) (t : Nat)
    (hs : cb.state = CircuitClosed) :
    RecordSuccess cb =
      { cb with state := CircuitClosed, failureCount := 0 } ∧
    RecordFailure cb t =
      (if cb.failureCount + 1 ≥ cb.failureThreshold then
        { cb with
            state := CircuitOpen
            failureCount := cb.failureCount + 1
            lastFailure := t }
      else
        { cb with
            failureCount := cb.failureCount + 1
            lastFailure := t }) := by
  constructor
  · rfl
  · by_cases hge : cb.failureCount + 1 ≥ cb.failureThreshold
    · rw [if_pos hge]
      simp [RecordFailure, hs, hge]
    · rw [if_neg hge]
      simp [RecordFailure, hs, hge]

theorem closed_record_ops_witness :
    RecordSuccess ⟨CircuitClosed, 2, 4, 3, 9⟩ =
      ⟨CircuitClosed, 0, 4, 3, 9⟩ ∧
    RecordFailure ⟨CircuitClosed, 2, 4, 3, 9⟩ 6 =
      ⟨CircuitOpen, 3, 6, 3, 9⟩ := by
  have h := closed_record_ops ⟨CircuitClosed, 2, 4, 3, 9⟩ 6 rfl
  refine ⟨h.1, ?_⟩
  rw [h.2]
  decide

/-! ## Claims C3 and C7: retry-loop and ordering properties of `Request` -/

/-- C3: a `Request` that passes the breaker and the limiter and whose
every attempt fails performs exactly `maxRetries + 1` attempts — the
trace holds exactly that many failure recordings, with the retry-delay
wait before every attempt after the first — records every failure into
the breaker (the final breaker is the `RecordFailure` fold over all
attempts of the breaker left by the check), and returns the error
wrapping the last attempt's error. -/
theorem request_all_attempts_fail (c : Client) (cb : CircuitBreaker)
    (w : ReqWorld) (now : Nat)
    (hallow : (AllowRequest cb now).1 = true)
    (hlim : w.limiterCancelled = false)
    (hctx : ∀ j, w.ctxDoneAt j = false)
    (hfail : ∀ j, ∃ e, doRequest w j = Except.error e) :
    Request c cb w now =
      (Except.error (ReqError.transportError (doErr w c.maxRetries)),
        failFold w (AllowRequest cb now).2 0 (c.maxRetries + 1),
        Event.breakerCheck true :: Event.limiterWait ::
          failEvents w 0 (c.maxRetries + 1)) ∧
    (Request c cb w now).2.2.countP (fun e => isRecordFailure e) =
      c.maxRetries + 1 ∧
    (∀ i, 1 ≤ i → i ≤ c.maxRetries →
      Event.retryDelay i ∈ (Request c cb w now).2.2) := by
  have hloop := requestLoop_allFail w (AllowRequest cb now).2 0
    (c.maxRetries + 1) none hctx hfail
  have hlerr : lastErrOf w 0 (c.maxRetries + 1) none = doErr w c.maxRetries := by
    show doErr w (0 + c.maxRetries) = doErr w c.maxRetries
    rw [Nat.zero_add]
  have heq : Request c cb w now =
      (Except.error (ReqError.transportError (doErr w c.maxRetries)),
        failFold w (AllowRequest cb now).2 0 (c.maxRetries + 1),
        Event.breakerCheck true :: Event.limiterWait ::
          failEvents w 0 (c.maxRetries + 1)) := by
    simp only [Request, hallow, hlim, hloop, hlerr]
    simp
  refine ⟨heq, ?_, ?_⟩
  · rw [heq]
    simp only [List.countP_cons]
    rw [countP_recordFailure_failEvents w (c.maxRetries + 1) 0]
    simp [isRecordFailure]
  · intro i h1 h2
    rw [heq]
    have hmem := retryDelay_mem_failEvents w (c.maxRetries + 1) 0 i
      (by omega) (by omega) (by omega)
    simp [hmem]

theorem request_all_attempts_fail_witness :
    (Request ⟨2⟩ (initialBreaker 5 30) sampleWorld 0).2.2.countP
      (fun e => isRecordFailure e) = 3 :=
  (request_all_attempts_fail ⟨2⟩ (initialBreaker 5 30) sampleWorld 0 rfl rfl
    (fun _ => rfl) (fun _ => ⟨DoError.transportFail, rfl⟩)).2.1

/-- C7: in every `Request` call the trace is either exactly one denied
breaker check, or exactly one passed breaker check followed immediately
by exactly one rate-limiter wait followed by the retry loop's events,
which contain no further breaker check and no further limiter wait: the
check happens once and precedes the wait, the wait happens at most once
and precedes the loop, no network call precedes either, and neither is
repeated for retry attempts. -/
theorem request_event_order (c : Client) (cb : CircuitBreaker)
    (w : ReqWorld) (now : Nat) :
    (Request c cb w now).2.2 = [Event.breakerCheck false] ∨
    (∃ rest, (Request c cb w now).2.2 =
        Event.breakerCheck true :: Event.limiterWait :: rest ∧
      ctlFree rest = true) := by
  by_cases hallow : (AllowRequest cb now).1 = true
  · right
    by_cases hlim : w.limiterCancelled = true
    · refine ⟨[], ?_, rfl⟩
      simp only [Request, hallow, hlim]
      simp
    · have hlim2 : w.limiterCancelled = false := by
        simpa using hlim
      refine ⟨(requestLoop w (AllowRequest cb now).2 0
          (c.maxRetries + 1) none).2.2, ?_,
        requestLoop_ctlFree w (c.maxRetries + 1) (AllowRequest cb now).2 0
          none⟩
      simp only [Request, hallow, hlim2]
      simp
  · left
    have hfalse : (AllowRequest cb now).1 = false := by
      simpa using hallow
    simp only [Request, hfalse]
    simp

/-! ## Claims C9 and C10 -/

/-- A world whose first attempt fails on transport and whose later
attempts return 200 with body `[42]`. -/
def sampleWorldRecover : ReqWorld :=
  { limiterCancelled := false
    ctxDoneAt := fun _ => false
    bodyPresent := false
    marshalOk := true
    newRequestOk := true
    http := fun i =>
      if i = 0 then HttpResult.transportFail
      else HttpResult.response 200 true [42]
    attemptTime := fun _ => 3 }

/-- A world whose request body fails to marshal. -/
def sampleWorldBadBody : ReqWorld :=
  { limiterCancelled := false
    ctxDoneAt := fun _ => false
    bodyPresent := true
    marshalOk := false
    newRequestOk := true
    http := fun _ => HttpResult.response 200 true []
    attemptTime := fun _ => 5 }

/-- C9: `RecordSuccess` closes the breaker and zeroes the count from
every prior state (first conjunct); consequently, in a `Request` whose
attempts before `k` fail and whose attempt `k ≤ maxRetries` succeeds,
the final breaker is Closed with count 0 and the call returns attempt
`k`'s body, even though the mid-loop breaker after those `k` failures is
Open whenever `k` reaches the threshold — and the trace holds exactly
one breaker check, so no Half-Open probe phase occurs within the call. -/
theorem record_success_unconditional (cb0 : CircuitBreaker) (c : Client)
    (cb : CircuitBreaker) (w : ReqWorld) (now k : Nat) (body : List Nat)
    (hallow : (AllowRequest cb now).1 = true)
    (hlim : w.limiterCancelled = false)
    (hctx : ∀ j, w.ctxDoneAt j = false)
    (hk : k ≤ c.maxRetries)
    (hfail : ∀ j, j < k → ∃ e, doRequest w j = Except.error e)
    (hok : doRequest w k = Except.ok body) :
    ((RecordSuccess cb0).state = CircuitClosed ∧
      (RecordSuccess cb0).failureCount = 0) ∧
    (Request c cb w now).1 = Except.ok body ∧
    (Request c cb w now).2.1.state = CircuitClosed ∧
    (Request c cb w now).2.1.failureCount = 0 ∧
    (1 ≤ k → (AllowRequest cb now).2.failureThreshold ≤ k →
      (failFold w (AllowRequest cb now).2 0 k).state = CircuitOpen) ∧
    (Request c cb w now).2.2.countP (fun e => isBreakerCheck e) = 1 := by
  have hloop := requestLoop_succAt w (c.maxRetries + 1) (AllowRequest cb now).2
    0 none k body (Nat.zero_le k) (by omega) hctx
    (fun j _ hj2 => hfail j hj2) hok
  have heq : Request c cb w now =
      (Except.ok body,
        RecordSuccess (failFold w (AllowRequest cb now).2 0 k),
        Event.breakerCheck true :: Event.limiterWait ::
          (failEvents w 0 k ++ delayEvents k ++ attemptEvents w k
            ++ [Event.recordSuccess k])) := by
    simp only [Request, hallow, hlim, hloop]
    simp
  refine ⟨⟨rfl, rfl⟩, ?_, ?_, ?_, ?_, ?_⟩
  · rw [heq]
  · rw [heq]
    rfl
  · rw [heq]
    rfl
  · intro h1 h2
    apply failFold_state_open w k (AllowRequest cb now).2 0 h1
    omega
  · rw [heq]
    simp only [List.countP_cons]
    have hctl : ctlFree (failEvents w 0 k ++ delayEvents k
        ++ attemptEvents w k ++ [Event.recordSuccess k]) = true := by
      simp [ctlFree_append, ctlFree_cons, ctlFree_failEvents,
        ctlFree_delayEvents, ctlFree_attemptEvents, isBreakerCheck,
        isLimiterWait]
      rfl
    rw [countP_eq_zero_of_ctlFree _ hctl]
    simp [isBreakerCheck]

theorem record_success_unconditional_witness :
    (Request ⟨2⟩ (initialBreaker 1 30) sampleWorldRecover 0).2.1.failureCount
      = 0 :=
  (record_success_unconditional ⟨CircuitOpen, 9, 9, 9, 9⟩ ⟨2⟩
    (initialBreaker 1 30) sampleWorldRecover 0 1 [42] rfl rfl (fun _ => rfl)
    (by decide)
    (fun j hj => match j with
      | 0 => ⟨DoError.transportFail, rfl⟩
      | jj + 1 => absurd hj (by omega))
    rfl).2.2.2.1

/-- A trace of all-failing attempts that never reach the network holds
no network-call event. -/
theorem countP_networkCall_failEvents (w : ReqWorld) (r : Nat)
    (hnt : ∀ i, touchesNetwork w i = false) :
    ∀ i, (failEvents w i r).countP (fun e => isNetworkCall e) = 0 := by
  induction r with
  | zero => intro i; rfl
  | succ rr ih =>
      intro i
      show (delayEvents i ++ attemptEvents w i ++ [Event.recordFailure i]
        ++ failEvents w (i + 1) rr).countP (fun e => isNetworkCall e) = 0
      have hde : (delayEvents i).countP (fun e => isNetworkCall e) = 0 := by
        unfold delayEvents
        split <;> rfl
      have hae : (attemptEvents w i).countP (fun e => isNetworkCall e) = 0 := by
        unfold attemptEvents
        rw [if_neg (by rw [hnt i]; exact Bool.false_ne_true)]
        rfl
      rw [List.countP_append, List.countP_append, List.countP_append,
        hde, hae, ih (i + 1)]
      rfl

/-- C10: when the request body cannot be JSON-serialised, every one of
the `maxRetries + 1` attempts fails locally at marshalling: the trace
holds no network call at all yet `maxRetries + 1` failure recordings,
the final breaker is the failure fold of all attempts — Open whenever
`maxRetries + 1` reaches the threshold, so a purely local error can
open the breaker — and the call returns the wrap of the marshal
error. -/
theorem request_marshal_error (c : Client) (cb : CircuitBreaker)
    (w : ReqWorld) (now : Nat)
    (hallow : (AllowRequest cb now).1 = true)
    (hlim : w.limiterCancelled = false)
    (hctx : ∀ j, w.ctxDoneAt j = false)
    (hbody : w.bodyPresent = true) (hmar : w.marshalOk = false) :
    (Request c cb w now).1 =
      Except.error (ReqError.transportError (some DoError.marshalFail)) ∧
    (Request c cb w now).2.2.countP (fun e => isNetworkCall e) = 0 ∧
    (Request c cb w now).2.2.countP (fun e => isRecordFailure e) =
      c.maxRetries + 1 ∧
    (Request c cb w now).2.1 =
      failFold w (AllowRequest cb now).2 0 (c.maxRetries + 1) ∧
    ((AllowRequest cb now).2.failureThreshold ≤
        (AllowRequest cb now).2.failureCount + (c.maxRetries + 1) →
      (Request c cb w now).2.1.state = CircuitOpen) := by
  have hdo : ∀ j, doRequest w j = Except.error DoError.marshalFail := by
    intro j
    unfold doRequest
    rw [if_pos ⟨hbody, by rw [hmar]; exact Bool.false_ne_true⟩]
  have hnt : ∀ i, touchesNetwork w i = false := by
    intro i
    unfold touchesNetwork
    rw [hbody, hmar]
    rfl
  have hloop := requestLoop_allFail w (AllowRequest cb now).2 0
    (c.maxRetries + 1) none hctx (fun j => ⟨DoError.marshalFail, hdo j⟩)
  have hlerr : lastErrOf w 0 (c.maxRetries + 1) none =
      some DoError.marshalFail := by
    show doErr w (0 + c.maxRetries) = some DoError.marshalFail
    unfold doErr
    rw [hdo]
  have heq : Request c cb w now =
      (Except.error (ReqError.transportError (some DoError.marshalFail)),
        failFold w (AllowRequest cb now).2 0 (c.maxRetries + 1),
        Event.breakerCheck true :: Event.limiterWait ::
          failEvents w 0 (c.maxRetries + 1)) := by
    simp only [Request, hallow, hlim, hloop, hlerr]
    simp
  refine ⟨?_, ?_, ?_, ?_, ?_⟩
  · rw [heq]
  · rw [heq]
    simp only [List.countP_cons]
    rw [countP_networkCall_failEvents w (c.maxRetries + 1) hnt 0]
    simp [isNetworkCall]
  · rw [heq]
    simp only [List.countP_cons]
    rw [countP_recordFailure_failEvents w (c.maxRetries + 1) 0]
    simp [isRecordFailure]
  · rw [heq]
  · intro hth
    rw [heq]
    show (failFold w (AllowRequest cb now).2 0 (c.maxRetries + 1)).state =
      CircuitOpen
    apply failFold_state_open w (c.maxRetries + 1) (AllowRequest cb now).2 0
      (by omega) hth

theorem request_marshal_error_witness :
    (Request ⟨1⟩ (initialBreaker 2 30) sampleWorldBadBody 0).2.1.state =
      CircuitOpen :=
  (request_marshal_error ⟨1⟩ (initialBreaker 2 30) sampleWorldBadBody 0 rfl
    rfl (fun _ => rfl) rfl rfl).2.2.2.2 (by decide)

/-! ## Claim C4: attempt success/failure classification -/

/-- A world whose every HTTP exchange yields a 304 Not Modified. -/
def world304 : ReqWorld :=
  { limiterCancelled := false
    ctxDoneAt := fun _ => false
    bodyPresent := false
    marshalOk := true
    newRequestOk := true
    http := fun _ => HttpResult.response 304 true []
    attemptTime := fun _ => 0 }

/-- C4 counterexample: `doRequest` treats every status below 400 as a
success (`client.go:160` checks `StatusCode >= 400`), not only the 2xx
class: a 304 response is returned as a success although 304 is not
2xx-class, refuting the claim that an attempt succeeds exactly on a
2xx-class status. -/
theorem attempt_2xx_cex :
    world304.http 0 = HttpResult.response 304 true [] ∧
    doRequest world304 0 = Except.ok [] ∧
    ¬ (200 ≤ 304 ∧ 304 < 300) := by
  refine ⟨rfl, rfl, by omega⟩

/-- C4 amended: an attempt is a success — in the retry loop recording a
success on the breaker and returning the response body — exactly when
marshalling and request construction succeed, the exchange returns a
response whose body reads, and the status code is below 400; it is a
failure — recording a failure on the breaker and continuing the loop —
otherwise; in particular every status in the 4xx/5xx range (≥ 400) is a
failure for retry and breaker purposes. -/
theorem attempt_success_iff (w : ReqWorld) (i : Nat) :
    ((∃ body, doRequest w i = Except.ok body) ↔
      (¬ (w.bodyPresent ∧ ¬ w.marshalOk) ∧ w.newRequestOk ∧
        ∃ code body, w.http i = HttpResult.response code true body ∧
          code < 400)) ∧
    (∀ code readOk body, w.http i = HttpResult.response code readOk body →
      400 ≤ code → ∃ e, doRequest w i = Except.error e) ∧
    (∀ (cb : CircuitBreaker) (r : Nat) (lastErr : Option DoError)
        (body : List Nat),
      w.ctxDoneAt i = false → doRequest w i = Except.ok body →
      requestLoop w cb i (r + 1) lastErr =
        (Except.ok body, RecordSuccess cb,
          delayEvents i ++ attemptEvents w i
            ++ [Event.recordSuccess i])) ∧
    (∀ (cb : CircuitBreaker) (r : Nat) (lastErr : Option DoError)
        (e : DoError),
      w.ctxDoneAt i = false → doRequest w i = Except.error e →
      requestLoop w cb i (r + 1) lastErr =
        ((requestLoop w (RecordFailure cb (w.attemptTime i)) (i + 1) r
            (some e)).1,
          (requestLoop w (RecordFailure cb (w.attemptTime i)) (i + 1) r
            (some e)).2.1,
          delayEvents i ++ attemptEvents w i ++ [Event.recordFailure i]
            ++ (requestLoop w (RecordFailure cb (w.attemptTime i)) (i + 1) r
              (some e)).2.2)) := by
  refine ⟨?_, ?_, ?_, ?_⟩
  · unfold doRequest
    by_cases h1 : w.bodyPresent ∧ ¬ w.marshalOk
    · simp [h1]
    · rw [if_neg h1]
      by_cases h2 : w.newRequestOk = true
      · rw [if_neg (by simp [h2])]
        cases hh : w.http i with
        | transportFail => simp [h1, h2, hh]
        | response code readOk body =>
            cases readOk with
            | false => simp [h1, h2, hh]
            | true =>
                by_cases hc : code ≥ 400
                · simp [h1, h2, hh, hc]
                · simp [h1, h2, hh, hc]
                  refine ⟨?_, by omega⟩
                  intro hbp
                  by_cases hm : w.marshalOk = true
                  · exact hm
                  · exact absurd ⟨hbp, hm⟩ h1
      · rw [if_pos (by simpa using h2)]
        simp [h1, h2]
  · intro code readOk body hh hge
    unfold doRequest
    by_cases h1 : w.bodyPresent ∧ ¬ w.marshalOk
    · exact ⟨DoError.marshalFail, by rw [if_pos h1]⟩
    · rw [if_neg h1]
      by_cases h2 : w.newRequestOk = true
      · rw [if_neg (by simp [h2]), hh]
        cases readOk with
        | false => exact ⟨DoError.readFail, by simp⟩
        | true => exact ⟨DoError.statusFail code, by simp [hge]⟩
      · exact ⟨DoError.newRequestFail, by rw [if_pos (by simpa using h2)]⟩
  · intro cb r lastErr body hq hok
    simp only [requestLoop, hq, hok]
    rw [if_neg (by simp)]
  · intro cb r lastErr e hq he
    simp only [requestLoop, hq, he]
    rw [if_neg (by simp)]

/-- A world whose every HTTP exchange yields a 404. -/
def world404 : ReqWorld :=
  { limiterCancelled := false
    ctxDoneAt := fun _ => false
    bodyPresent := false
    marshalOk := true
    newRequestOk := true
    http := fun _ => HttpResult.response 404 true []
    attemptTime := fun _ => 0 }

theorem attempt_success_iff_witness :
    ∃ e, doRequest world404 0 = Except.error e :=
  (attempt_success_iff world404 0).2.1 404 true [] rfl (by omega)

/-! ## Claim C8: the telemetry scheduler loop (`TelemetryClient.Start`)

The select loop waits on the cancellation signal, the metrics ticker,
the check-in ticker and the one-second uptime ticker; a run of the loop
is modelled by the ordered list of wake events it processes. Metrics
payloads and context errors are opaque `Nat` identifiers. -/

/-- One wake of the scheduler select loop. -/
inductive TickEvent where
  /-- Signal that `ctx.Done()` fires; `err` identifies `ctx.Err()`. -/
  | ctxDone (err : Nat)
  /-- Signal that the metrics ticker fires: `collected` is the snapshot if
  `collector.Collect()` succeeds, `sendOk` whether the transmission
  via the API client succeeds. -/
  | metricsTick (collected : Option Nat) (sendOk : Bool)
  /-- Signal that the check-in ticker fires: `ok` whether `sendCheckin` succeeds. -/
  | checkinTick (ok : Bool)
  /-- Signal that the uptime ticker fires. -/
  | uptimeTick
deriving DecidableEq, Repr

/-- Observable scheduler effects: metrics transmissions attempted,
check-in ticks handled, check-ins recorded to Prometheus (success
only), uptime seconds recorded. -/
structure SchedState where
  transmissions : List Nat
  checkinTicks : Nat
  checkinsRecorded : Nat
  uptime : Nat
deriving DecidableEq, Repr

/-- The select loop of `TelemetryClient.Start`: each wake is handled in
order; cancellation returns `ctx.Err()`; a metrics tick whose
collection fails logs and `continue`s with no transmission; a metrics
tick whose collection succeeds attempts one transmission (its outcome
is logged and swallowed); a check-in tick attempts a check-in, records
it on success, and continues either way; an uptime tick adds one
second. The loop only stops on cancellation (`none` = still running
when the events are exhausted). -/
def runSched (evs : List TickEvent) (s : SchedState) :
    SchedState × Option Nat :=
  match evs with
  | [] => (s, none)
  | TickEvent.ctxDone err :: _ => (s, some err)
  | TickEvent.metricsTick none _ :: rest => runSched rest s
  | TickEvent.metricsTick (some m) _ :: rest =>
      runSched rest { s with transmissions := s.transmissions ++ [m] }
  | TickEvent.checkinTick ok :: rest =>
      runSched rest
        { s with
            checkinTicks := s.checkinTicks + 1
            checkinsRecorded :=
              s.checkinsRecorded + (if ok then 1 else 0) }
  | TickEvent.uptimeTick :: rest =>
      runSched rest { s with uptime := s.uptime + 1 }

/-- The first cancellation signal among the wake events, if any. -/
def firstCancel : List TickEvent → Option Nat
  | [] => none
  | TickEvent.ctxDone err :: _ => some err
  | _ :: rest => firstCancel rest

/-- C8: the scheduler loop never terminates because of a failed tick:
its return value is exactly the first cancellation signal's error
(`none` — still running — while no cancellation has fired), so the only
way the loop ends is the cancellation signal, whose error is returned
as `Start`'s result, distinguishable from any transport error; a
metrics tick whose collection fails produces no transmission and the
loop continues unchanged; a metrics tick whose send fails is swallowed
exactly like a successful send, the transmission having been attempted;
and a failed check-in is logged and swallowed, the loop continuing. -/
theorem scheduler_survives_tick_failures :
    (∀ (evs : List TickEvent) (s : SchedState),
      (runSched evs s).2 = firstCancel evs) ∧
    (∀ (rest : List TickEvent) (s : SchedState) (b : Bool),
      runSched (TickEvent.metricsTick none b :: rest) s = runSched rest s) ∧
    (∀ (rest : List TickEvent) (s : SchedState) (m : Nat) (b : Bool),
      runSched (TickEvent.metricsTick (some m) b :: rest) s =
        runSched rest
          { s with transmissions := s.transmissions ++ [m] }) ∧
    (∀ (rest : List TickEvent) (s : SchedState),
      runSched (TickEvent.checkinTick false :: rest) s =
        runSched rest
          { s with checkinTicks := s.checkinTicks + 1 }) ∧
    (∀ (rest : List TickEvent) (s : SchedState) (err : Nat),
      runSched (TickEvent.ctxDone err :: rest) s = (s, some err)) := by
  refine ⟨?_, fun _ _ _ => rfl, fun _ _ _ _ => rfl, fun _ _ => rfl,
    fun _ _ _ => rfl⟩
  intro evs
  induction evs with
  | nil => intro s; rfl
  | cons ev rest ih =>
      intro s
      cases ev with
      | ctxDone err => rfl
      | metricsTick collected sendOk =>
          cases collected with
          | none => exact ih _
          | some m => exact ih _
      | checkinTick ok => exact ih _
      | uptimeTick => exact ih _

end TalisAgent
